import Mathlib

/-!
A shallow embedding of the `metric` Go package (metric.go): a counter metric
and a time-windowed ring ("timeseries") of counters with lazy, read-triggered
rotation.  Wall-clock times and durations are modelled as `Int` nanoseconds
(Go's `time.Time` instant and `time.Duration`), and the float64 accumulator
of a counter is idealized as an exact rational number `ℚ`.  Each Go method
that reads the global clock takes the current time `t : Int` explicitly; each
mutating method returns the updated value.  Fallible operations (Go panics:
out-of-range indexing, `make` with a negative length) return `Option`.
-/

/-- JSON values, as produced by `encoding/json` marshalling, modelled
structurally (numbers as exact rationals). -/
inductive Json where
  | num (q : ℚ)
  | str (s : String)
  | arr (elems : List Json)
  | obj (fields : List (String × Json))

/-- The `counter` struct: a float64 accumulator (idealized as `ℚ`), stored in
the Go code as an atomic uint64 bit pattern. -/
structure counter where
  count : ℚ
deriving DecidableEq

/-- `counter.value`: atomic read of the accumulator. -/
def counter.value (c : counter) : ℚ := c.count

/-- `counter.Add`: adds `n` to the accumulator (the Go code performs this via
a load / compute / compare-and-swap retry loop; its sequential effect is the
plain addition modelled here, and the concurrent loop itself is modelled by
`CasStep` below). -/
def counter.Add (c : counter) (n : ℚ) : counter := ⟨c.count + n⟩

/-- `counter.Reset`: atomically stores the bit pattern of 0. -/
def counter.Reset (_ : counter) : counter := ⟨0⟩

/-- `counter.MarshalJSON`: marshals `{"type":"c","count":<value>}`. -/
def counter.MarshalJSON (c : counter) : Json :=
  Json.obj [(("type"), Json.str ("c")), (("count"), Json.num c.value)]

/-- The `timeseries` struct: reference time `now`, bucket `interval`, and the
ring of `samples` (head bucket first).  The mutex field is not modelled: each
method below is the whole critical section it guards. -/
structure timeseries where
  now : Int
  interval : Int
  samples : List counter
deriving DecidableEq

/-- Go's `time.Time.Round`: round `t` to the nearest multiple of `d` (half
rounds up); for `d ≤ 0` the time is returned unchanged. -/
def timeRound (t d : Int) : Int :=
  if d ≤ 0 then t
  else
    let r := t % d
    if r + r < d then t - r else t + (d - r)

/-- `timeseries.Reset`: resets every bucket to zero (leaves `now` alone). -/
def timeseries.Reset (ts : timeseries) : timeseries :=
  { ts with samples := ts.samples.map counter.Reset }

/-- The shift count computed at the top of `timeseries.roll`:
`int((t.Round(interval) - now.Round(interval)) / interval)`, with Go's
truncating (toward zero) integer division. -/
def timeseries.rollShift (ts : timeseries) (t : Int) : Int :=
  Int.tdiv (timeRound t ts.interval - timeRound ts.now ts.interval) ts.interval

/-- One pass of the rotation loop body in `timeseries.roll`: the tail bucket
is moved to the head position and reset, every other bucket shifts one slot
toward the tail. -/
def rotateOnce (l : List counter) : List counter :=
  match l with
  | [] => []
  | x :: xs => ((x :: xs).getLastD x).Reset :: (x :: xs).dropLast

/-- The rotation loop of `timeseries.roll`, run `k` times in sequence. -/
def rotateTimes : Nat → List counter → List counter
  | 0, l => l
  | k + 1, l => rotateTimes k (rotateOnce l)

/-- `timeseries.roll`: compute the shift count, unconditionally update the
reference time to `t`, then: no structural change when the shift is ≤ 0, a
full `Reset` when it reaches the ring length, and otherwise that many single
rotations. -/
def timeseries.roll (ts : timeseries) (t : Int) : timeseries :=
  let sh := ts.rollShift t
  let base : timeseries := { ts with now := t }
  if sh ≤ 0 then base
  else if (base.samples.length : Int) ≤ sh then base.Reset
  else { base with samples := rotateTimes sh.toNat base.samples }

/-- `timeseries.Add`: under the lock, add `n` to the head bucket
`samples[0]`.  No rotation is performed (the `roll()` call is commented out
in the source).  Indexing an empty ring panics, modelled as `none`. -/
def timeseries.Add (ts : timeseries) (n : ℚ) : Option timeseries :=
  match ts.samples with
  | [] => none
  | c :: rest => some { ts with samples := c.Add n :: rest }

/-- The JSON body built inside `timeseries.MarshalJSON`:
`{"interval": <interval in seconds>, "samples": [...]}` where the interval is
the float64 quotient `interval / time.Second`. -/
def timeseries.serializeBody (ts : timeseries) : Json :=
  Json.obj
    [(("interval"), Json.num ((ts.interval : ℚ) / ((1000000000 : Int) : ℚ))),
     (("samples"), Json.arr (ts.samples.map counter.MarshalJSON))]

/-- `timeseries.MarshalJSON`: under the lock, marshal the current interval
and samples, and only afterwards call `roll()`.  Returns the marshalled value
together with the post-call state. -/
def timeseries.MarshalJSON (ts : timeseries) (t : Int) : Json × timeseries :=
  let val :=
    Json.obj
      [(("interval"), Json.num ((ts.interval : ℚ) / ((1000000000 : Int) : ℚ))),
       (("samples"), Json.arr (ts.samples.map counter.MarshalJSON))]
  (val, ts.roll t)

/-- `timeseries.Get`: under the lock, read every bucket's value, then
`roll()`. -/
def timeseries.Get (ts : timeseries) (t : Int) : List ℚ × timeseries :=
  (ts.samples.map counter.value, ts.roll t)

/-- `timeseries.String`: delegates to `MarshalJSON`. -/
def timeseries.String (ts : timeseries) (t : Int) : Json × timeseries :=
  ts.MarshalJSON t

/-- `time.Second`, in nanoseconds. -/
def timeSecond : Int := 1000000000

/-- `time.Minute`, in nanoseconds. -/
def timeMinute : Int := 60 * timeSecond

/-- `time.Hour`, in nanoseconds. -/
def timeHour : Int := 60 * timeMinute

/-- The `units` map in `newTimeseries`; a rune absent from the map yields the
zero `time.Duration`. -/
def units (c : Char) : Int :=
  if c = 's' then timeSecond
  else if c = 'm' then timeMinute
  else if c = 'h' then timeHour
  else if c = 'd' then timeHour * 24
  else if c = 'w' then timeHour * 24 * 7
  else if c = 'M' then timeHour * 24 * 7 * 30
  else if c = 'y' then timeHour * 24 * 7 * 365
  else 0

/-- Drop the leading spaces an `fmt` numeric verb skips. -/
def skipSpaces : List Char → List Char
  | [] => []
  | c :: cs => if c = ' ' then skipSpaces cs else c :: cs

/-- Accumulate a run of leading decimal digits. -/
def digitsAux : Nat → List Char → Nat × List Char
  | acc, [] => (acc, [])
  | acc, c :: cs =>
      if c.isDigit then digitsAux (acc * 10 + (c.toNat - 48)) cs else (acc, c :: cs)

/-- Parse one or more leading decimal digits, or fail. -/
def parseNat (l : List Char) : Option (Nat × List Char) :=
  match l with
  | [] => none
  | c :: cs => if c.isDigit then some (digitsAux (c.toNat - 48) cs) else none

/-- Two's-complement wrap-around of Go's 64-bit signed arithmetic
(`int64` / `time.Duration`): reduce into `[-2^63, 2^63)`. -/
def wrap64 (x : Int) : Int :=
  (x + 9223372036854775808) % 18446744073709551616 - 9223372036854775808

/-- The behaviour of `fmt`'s `%d` verb scanning into an `int`: skip spaces,
then an optionally signed decimal integer; a literal outside the `int64`
range makes `strconv.ParseInt` fail with a range error, so the verb errors
and the operand keeps its zero value. -/
def parseIntTok (l : List Char) : Option (Int × List Char) :=
  match skipSpaces l with
  | '-' :: rest => (parseNat rest).bind (fun p =>
      if (p.1 : Int) > 9223372036854775808 then none else some (-(p.1 : Int), p.2))
  | '+' :: rest => (parseNat rest).bind (fun p =>
      if (p.1 : Int) > 9223372036854775807 then none else some ((p.1 : Int), p.2))
  | other => (parseNat other).bind (fun p =>
      if (p.1 : Int) > 9223372036854775807 then none else some ((p.1 : Int), p.2))

/-- `fmt.Sscanf(frame, "%d%c%d%c", ...)`: scanning stops at the first verb
that fails, leaving the remaining arguments at their zero values (`0` for the
ints, the zero rune for the chars). -/
def parseFrame (frame : String) : Int × Char × Int × Char :=
  match parseIntTok frame.data with
  | none => (0, Char.ofNat 0, 0, Char.ofNat 0)
  | some (totalNum, r1) =>
    match r1 with
    | [] => (totalNum, Char.ofNat 0, 0, Char.ofNat 0)
    | totalUnit :: r2 =>
      match parseIntTok r2 with
      | none => (totalNum, totalUnit, 0, Char.ofNat 0)
      | some (intervalNum, r3) =>
        match r3 with
        | [] => (totalNum, totalUnit, intervalNum, Char.ofNat 0)
        | intervalUnit :: _ => (totalNum, totalUnit, intervalNum, intervalUnit)

/-- The bucket interval computed by `newTimeseries`: `units[intervalUnit] *
intervalNum` in Go's wrapping `int64` (`time.Duration`) arithmetic,
defaulting to one minute when that (wrapped) product is zero. -/
def frameInterval (frame : String) : Int :=
  let p := parseFrame frame
  let interval0 := wrap64 (units p.2.2.2 * p.2.2.1)
  if interval0 = 0 then timeMinute else interval0

/-- The total retention computed by `newTimeseries`: `units[totalUnit] *
totalNum` in Go's wrapping `int64` arithmetic, defaulting to 15 intervals
(again a wrapping product) when the parsed product is zero. -/
def frameTotal (frame : String) : Int :=
  let p := parseFrame frame
  let totalDuration0 := wrap64 (units p.2.1 * p.1)
  if totalDuration0 = 0 then wrap64 (frameInterval frame * 15) else totalDuration0

/-- The bucket count computed by `newTimeseries`:
`int(totalDuration / interval)` with Go's truncating `int64` division; no
clamping.  (The wrap covers Go's one overflowing quotient,
`MinInt64 / -1 = MinInt64`.) -/
def frameBuckets (frame : String) : Int :=
  wrap64 (Int.tdiv (frameTotal frame) (frameInterval frame))

/-- `newTimeseries` (with the counter builder used by `NewCounter`): parse
the frame string, apply the defaults, and allocate the ring.  Go's
`make([]Metric, n, n)` panics when `n` is negative, modelled as `none`. -/
def newTimeseries (frameStart : Int) (frame : String) : Option timeseries :=
  let n := frameBuckets frame
  if n < 0 then none
  else some { now := frameStart, interval := frameInterval frame,
              samples := List.replicate n.toNat ⟨0⟩ }

/-- The bare-counter snapshot shape stated by the spec:
`{"type":"c","count":<value>}`, a function of the counter's value alone. -/
def specCounterSnapshot (v : ℚ) : Json :=
  Json.obj [(("type"), Json.str ("c")), (("count"), Json.num v)]

/-- The windowed-series snapshot shape stated by the spec:
`{"interval":<seconds>,"samples":[<counter snapshot per bucket>]}`. -/
def specSeriesSnapshot (intervalSeconds : ℚ) (buckets : List ℚ) : Json :=
  Json.obj
    [(("interval"), Json.num intervalSeconds),
     (("samples"), Json.arr (buckets.map specCounterSnapshot))]

/-- Thread-local state of one in-flight `counter.Add(d)` call: about to load
the accumulator, holding a loaded snapshot `old` and about to attempt the
compare-and-swap, or finished. -/
inductive ThSt where
  | ready (d : ℚ)
  | loaded (d old : ℚ)
  | done (d : ℚ)

/-- A shared counter cell together with the loop state of every concurrent
`counter.Add` caller. -/
structure CasState where
  mem : ℚ
  ths : List ThSt

/-- Interleaving small-step semantics of the load / compute /
compare-and-swap retry loop in `counter.Add` (the uint64 bit pattern of the
float64 cell is idealized as the exact value): a load reads the cell; a CAS
succeeds and installs `old + d` exactly when the cell still equals the loaded
snapshot, and otherwise fails, sending the caller back to the load. -/
inductive CasStep : CasState → CasState → Prop where
  | load (m : ℚ) (pre post : List ThSt) (d : ℚ) :
      CasStep ⟨m, pre ++ ThSt.ready d :: post⟩ ⟨m, pre ++ ThSt.loaded d m :: post⟩
  | casOk (pre post : List ThSt) (d old : ℚ) :
      CasStep ⟨old, pre ++ ThSt.loaded d old :: post⟩
        ⟨old + d, pre ++ ThSt.done d :: post⟩
  | casFail (m : ℚ) (pre post : List ThSt) (d old : ℚ) (h : m ≠ old) :
      CasStep ⟨m, pre ++ ThSt.loaded d old :: post⟩ ⟨m, pre ++ ThSt.ready d :: post⟩

/-- The delta a caller is adding, in any loop state. -/
def ThSt.delta : ThSt → ℚ
  | .ready d => d
  | .loaded d _ => d
  | .done d => d

/-- The contribution a caller has already installed in the cell: its delta
once done, nothing before. -/
def ThSt.doneAmount : ThSt → ℚ
  | .done d => d
  | _ => 0

/-- Sum of the already-installed contributions. -/
def doneSum (l : List ThSt) : ℚ := (l.map ThSt.doneAmount).sum

/-- Initial state: a zero cell and one caller per delta, none started. -/
def CasInit (ds : List ℚ) : CasState := ⟨0, ds.map ThSt.ready⟩

/-- Every caller's `Add` has completed. -/
def AllDone (s : CasState) : Prop := ∀ th ∈ s.ths, ∃ d, th = ThSt.done d

lemma map_counterReset (l : List counter) :
    l.map counter.Reset = List.replicate l.length ⟨0⟩ := by
  induction l with
  | nil => rfl
  | cons x xs ih => simp [counter.Reset, ih, List.replicate_succ]

lemma rotateOnce_cons (x : counter) (xs : List counter) :
    rotateOnce (x :: xs) = ⟨0⟩ :: (x :: xs).dropLast := by
  simp [rotateOnce, counter.Reset]

lemma rotateOnce_length (l : List counter) :
    (rotateOnce l).length = l.length := by
  cases l with
  | nil => rfl
  | cons x xs => simp [rotateOnce_cons]

lemma rotateTimes_spec (k : Nat) (l : List counter) (h : k ≤ l.length) :
    rotateTimes k l = List.replicate k ⟨0⟩ ++ l.take (l.length - k) := by
  induction k generalizing l with
  | zero => simp [rotateTimes]
  | succ k ih =>
    cases l with
    | nil => simp at h
    | cons x xs =>
      have hx : k ≤ xs.length := Nat.le_of_succ_le_succ (by simpa using h)
      have step : rotateTimes (k + 1) (x :: xs)
          = rotateTimes k (⟨0⟩ :: (x :: xs).dropLast) := by
        rw [rotateTimes, rotateOnce_cons]
      rw [step, ih _ (by simp only [List.length_cons]; simp; omega)]
      have htake : (⟨0⟩ :: (x :: xs).dropLast : List counter).take
            ((⟨0⟩ :: (x :: xs).dropLast : List counter).length - k)
          = ⟨0⟩ :: (x :: xs).take (xs.length - k) := by
        have h1 : (⟨0⟩ :: (x :: xs).dropLast : List counter).length - k
            = (xs.length - k) + 1 := by
          simp only [List.length_cons, List.length_dropLast]
          omega
        rw [h1, List.take_succ_cons, List.dropLast_eq_take, List.take_take]
        have h2 : min (xs.length - k) ((x :: xs).length - 1) = xs.length - k := by
          simp only [List.length_cons]
          omega
        rw [h2]
      rw [htake, List.replicate_succ' k]
      have h3 : (x :: xs).length - (k + 1) = xs.length - k := by
        simp only [List.length_cons]
        omega
      rw [h3, List.append_assoc, List.singleton_append]

lemma roll_shift_nonpos (ts : timeseries) (t : Int) (h : ts.rollShift t ≤ 0) :
    ts.roll t = { ts with now := t } := by
  simp [timeseries.roll, h]

lemma roll_shift_full (ts : timeseries) (t : Int)
    (h1 : 0 < ts.rollShift t) (h2 : (ts.samples.length : Int) ≤ ts.rollShift t) :
    ts.roll t
      = { ts with
          now := t
          samples := List.replicate ts.samples.length ⟨0⟩ } := by
  simp [timeseries.roll, not_le.mpr h1, timeseries.Reset, h2, map_counterReset]

lemma roll_shift_rotates (ts : timeseries) (t : Int)
    (h1 : 0 < ts.rollShift t) (h2 : ts.rollShift t < (ts.samples.length : Int)) :
    ts.roll t
      = { ts with
          now := t
          samples := rotateTimes (ts.rollShift t).toNat ts.samples } := by
  simp [timeseries.roll, not_le.mpr h1, not_le.mpr h2]

lemma timeRound_mono (d : Int) {t1 t2 : Int} (h : t1 ≤ t2) :
    timeRound t1 d ≤ timeRound t2 d := by
  by_cases hd : d ≤ 0
  · simpa [timeRound, hd] using h
  · push_neg at hd
    have key : ∀ t : Int, timeRound t d
        = d * (t / d) + (if (t % d) + (t % d) < d then 0 else d) := by
      intro t
      have hm : t % d = t - d * (t / d) := by
        have := Int.emod_def t d
        omega
      simp only [timeRound, not_le.mpr hd, if_false]
      split <;> omega
    have hq : t1 / d ≤ t2 / d := Int.ediv_le_ediv hd h
    rcases eq_or_lt_of_le hq with hq' | hq'
    · have hr : t1 % d ≤ t2 % d := by
        have e1 : t1 % d = t1 - d * (t1 / d) := by have := Int.emod_def t1 d; omega
        have e2 : t2 % d = t2 - d * (t2 / d) := by have := Int.emod_def t2 d; omega
        rw [e1, e2, hq']
        omega
      rw [key t1, key t2, hq']
      have : (if (t1 % d) + (t1 % d) < d then (0:Int) else d)
          ≤ (if (t2 % d) + (t2 % d) < d then (0:Int) else d) := by
        split <;> split <;> omega
      omega
    · rw [key t1, key t2]
      have hmul : d * (t1 / d) + d ≤ d * (t2 / d) := by
        have : d * (t1 / d + 1) ≤ d * (t2 / d) :=
          Int.mul_le_mul_of_nonneg_left (by omega) (by omega)
        linarith [this]
      have i1 : (if (t1 % d) + (t1 % d) < d then (0:Int) else d) ≤ d := by
        split <;> omega
      have i2 : (0:Int) ≤ (if (t2 % d) + (t2 % d) < d then (0:Int) else d) := by
        split <;> omega
      omega

lemma doneSum_append (l1 l2 : List ThSt) :
    doneSum (l1 ++ l2) = doneSum l1 + doneSum l2 := by
  simp [doneSum]

lemma casStep_deltas {s s' : CasState} (h : CasStep s s') :
    s'.ths.map ThSt.delta = s.ths.map ThSt.delta := by
  cases h <;> simp [ThSt.delta]

lemma casStep_invariant {s s' : CasState} (h : CasStep s s') :
    s'.mem - doneSum s'.ths = s.mem - doneSum s.ths := by
  cases h with
  | load m pre post d =>
      simp [doneSum_append, doneSum, ThSt.doneAmount]
  | casOk pre post d old =>
      simp only [doneSum_append]
      simp [doneSum, ThSt.doneAmount]
      ring
  | casFail m pre post d old hne =>
      simp [doneSum_append, doneSum, ThSt.doneAmount]

lemma casReach_invariant {ds : List ℚ} {s : CasState}
    (h : Relation.ReflTransGen CasStep (CasInit ds) s) :
    s.mem = doneSum s.ths ∧ s.ths.map ThSt.delta = ds := by
  induction h with
  | refl =>
      constructor
      · have : doneSum (ds.map ThSt.ready) = 0 := by
          induction ds with
          | nil => rfl
          | cons d ds ih => simp [doneSum, ThSt.doneAmount] at ih ⊢; exact ih
        simpa [CasInit] using this.symm
      · simp [CasInit, List.map_map]
        have : ThSt.delta ∘ ThSt.ready = id := by
          funext d; rfl
        simp [this]
  | tail hreach hstep ih =>
      rename_i b c
      refine ⟨?_, ?_⟩
      · have hinv := casStep_invariant hstep
        have := ih.1
        -- mem - doneSum is preserved and was 0 at b
        have hb : b.mem - doneSum b.ths = 0 := by rw [this]; ring
        have hc : c.mem - doneSum c.ths = 0 := by rw [hinv, hb]
        linarith [hc]
      · rw [casStep_deltas hstep, ih.2]

lemma doneSum_of_allDone {l : List ThSt} (h : ∀ th ∈ l, ∃ d, th = ThSt.done d) :
    doneSum l = (l.map ThSt.delta).sum := by
  induction l with
  | nil => rfl
  | cons x xs ih =>
      obtain ⟨d, rfl⟩ := h x (by simp)
      have := ih (fun th hth => h th (by simp [hth]))
      simp [doneSum, ThSt.doneAmount, ThSt.delta] at this ⊢
      exact this

/-- Claim C8: for every finite collection of concurrent `Add(d_i)` calls on a
bare counter — each a load / compute / compare-and-swap retry loop — every
interleaving of loads, successful CASes and failed CASes that completes all
callers leaves the cell holding exactly the sum of all the deltas: no lost or
torn updates.  (The float64 cell is idealized as exact rational arithmetic.) -/
theorem C8_cas_atomicity (ds : List ℚ) (s : CasState)
    (h : Relation.ReflTransGen CasStep (CasInit ds) s) (hd : AllDone s) :
    s.mem = ds.sum := by
  obtain ⟨hmem, hdelta⟩ := casReach_invariant h
  rw [hmem, doneSum_of_allDone hd, hdelta]

/-- Claim C8 witness: two concurrent callers adding 1 and 2, interleaved as
load, successful CAS, load, successful CAS, finish with the cell holding the
sum of the deltas. -/
theorem C8_witness :
    (⟨0 + 1 + 2, [ThSt.done 1, ThSt.done 2]⟩ : CasState).mem
      = ([1, 2] : List ℚ).sum := by
  have s1 : CasStep (CasInit [1, 2]) ⟨0, [ThSt.loaded 1 0, ThSt.ready 2]⟩ :=
    CasStep.load 0 [] [ThSt.ready 2] 1
  have s2 : CasStep ⟨0, [ThSt.loaded 1 0, ThSt.ready 2]⟩
      ⟨0 + 1, [ThSt.done 1, ThSt.ready 2]⟩ :=
    CasStep.casOk [] [ThSt.ready 2] 1 0
  have s3 : CasStep ⟨0 + 1, [ThSt.done 1, ThSt.ready 2]⟩
      ⟨0 + 1, [ThSt.done 1, ThSt.loaded 2 (0 + 1)]⟩ :=
    CasStep.load (0 + 1) [ThSt.done 1] [] 2
  have s4 : CasStep ⟨0 + 1, [ThSt.done 1, ThSt.loaded 2 (0 + 1)]⟩
      ⟨0 + 1 + 2, [ThSt.done 1, ThSt.done 2]⟩ :=
    CasStep.casOk [ThSt.done 1] [] 2 (0 + 1)
  have reach : Relation.ReflTransGen CasStep (CasInit [1, 2])
      ⟨0 + 1 + 2, [ThSt.done 1, ThSt.done 2]⟩ :=
    Relation.ReflTransGen.tail
      (Relation.ReflTransGen.tail
        (Relation.ReflTransGen.tail
          (Relation.ReflTransGen.tail Relation.ReflTransGen.refl s1) s2) s3) s4
  have hd : AllDone ⟨0 + 1 + 2, [ThSt.done 1, ThSt.done 2]⟩ := by
    intro th hth
    simp only [List.mem_cons, List.not_mem_nil, or_false] at hth
    rcases hth with rfl | rfl
    exacts [⟨1, rfl⟩, ⟨2, rfl⟩]
  exact C8_cas_atomicity [1, 2] _ reach hd

/-- Claim C1 counterexample: in the state reached by the canonical fixture
before the `t = 3 s` read (reference time 1 s, 1 s buckets, samples
`[5,1,0]`), the snapshot the code reports at `t = 3 s` is NOT the
serialization of the rolled state — the code serializes first and rolls
afterwards, so the claim's roll-then-serialize ordering is false on the
code. -/
theorem C1_counterexample :
    ((⟨1000000000, 1000000000, [⟨5⟩, ⟨1⟩, ⟨0⟩]⟩ : timeseries).MarshalJSON
        3000000000).1
      ≠ ((⟨1000000000, 1000000000, [⟨5⟩, ⟨1⟩, ⟨0⟩]⟩ : timeseries).roll
          3000000000).serializeBody := by
  have hroll : (⟨1000000000, 1000000000, [⟨5⟩, ⟨1⟩, ⟨0⟩]⟩ : timeseries).roll
      3000000000 = ⟨3000000000, 1000000000, [⟨0⟩, ⟨0⟩, ⟨5⟩]⟩ := by decide
  rw [hroll]
  intro h
  simp [timeseries.MarshalJSON, timeseries.serializeBody, counter.MarshalJSON,
    counter.value] at h

/-- Claim C1, amended: each snapshot read (`String()` / `MarshalJSON`) runs
under the series lock, serializes the current buckets FIRST, and only then
performs `roll()`; the reported contents therefore reflect the state as of
the previous read's rotation, while the roll performed at the end guarantees
that a subsequent read at the same instant reports the buckets rotated to
this read's wall-clock instant. -/
theorem C1_read_serializes_before_roll (ts : timeseries) (t : Int) :
    ts.String t = (ts.serializeBody, ts.roll t) ∧
    (ts.MarshalJSON t).1 = ts.serializeBody ∧
    (ts.MarshalJSON t).2 = ts.roll t ∧
    (((ts.MarshalJSON t).2).MarshalJSON t).1 = (ts.roll t).serializeBody :=
  ⟨rfl, rfl, rfl, rfl⟩

/-- Claim C2 counterexample: running the canonical fixture (interval 1 s,
N = 3, reference time 0) against the code — t=0 `Add(1)`, read `[1,0,0]`;
t=1 read `[1,0,0]`; t=1 `Add(5)`, read `[5,1,0]` — the SINGLE read at t=3
still reports `[5,1,0]`, not the `[0,0,5]` the claim states: the code
serializes before rolling, so one more read is needed to observe the aged
buckets. -/
theorem C2_counterexample :
    newTimeseries 0 ("3s1s")
      = some (⟨0, 1000000000, [⟨0⟩, ⟨0⟩, ⟨0⟩]⟩ : timeseries) ∧
    (⟨0, 1000000000, [⟨0⟩, ⟨0⟩, ⟨0⟩]⟩ : timeseries).Add 1
      = some (⟨0, 1000000000, [⟨1⟩, ⟨0⟩, ⟨0⟩]⟩ : timeseries) ∧
    (⟨0, 1000000000, [⟨1⟩, ⟨0⟩, ⟨0⟩]⟩ : timeseries).MarshalJSON 0
      = (specSeriesSnapshot 1 [1, 0, 0], ⟨0, 1000000000, [⟨1⟩, ⟨0⟩, ⟨0⟩]⟩) ∧
    (⟨0, 1000000000, [⟨1⟩, ⟨0⟩, ⟨0⟩]⟩ : timeseries).MarshalJSON 1000000000
      = (specSeriesSnapshot 1 [1, 0, 0],
         ⟨1000000000, 1000000000, [⟨0⟩, ⟨1⟩, ⟨0⟩]⟩) ∧
    (⟨1000000000, 1000000000, [⟨0⟩, ⟨1⟩, ⟨0⟩]⟩ : timeseries).Add 5
      = some (⟨1000000000, 1000000000, [⟨5⟩, ⟨1⟩, ⟨0⟩]⟩ : timeseries) ∧
    (⟨1000000000, 1000000000, [⟨5⟩, ⟨1⟩, ⟨0⟩]⟩ : timeseries).MarshalJSON 1000000000
      = (specSeriesSnapshot 1 [5, 1, 0],
         ⟨1000000000, 1000000000, [⟨5⟩, ⟨1⟩, ⟨0⟩]⟩) ∧
    ((⟨1000000000, 1000000000, [⟨5⟩, ⟨1⟩, ⟨0⟩]⟩ : timeseries).MarshalJSON
        3000000000).1
      ≠ specSeriesSnapshot 1 [0, 0, 5] := by
  refine ⟨by decide, ?_, ?_, ?_, ?_, ?_, ?_⟩
  · simp [timeseries.Add, counter.Add]
  · have hroll : (⟨0, 1000000000, [⟨1⟩, ⟨0⟩, ⟨0⟩]⟩ : timeseries).roll 0
        = ⟨0, 1000000000, [⟨1⟩, ⟨0⟩, ⟨0⟩]⟩ := by decide
    norm_num [timeseries.MarshalJSON, hroll, specSeriesSnapshot,
      specCounterSnapshot, counter.MarshalJSON, counter.value]
  · have hroll : (⟨0, 1000000000, [⟨1⟩, ⟨0⟩, ⟨0⟩]⟩ : timeseries).roll 1000000000
        = ⟨1000000000, 1000000000, [⟨0⟩, ⟨1⟩, ⟨0⟩]⟩ := by decide
    norm_num [timeseries.MarshalJSON, hroll, specSeriesSnapshot,
      specCounterSnapshot, counter.MarshalJSON, counter.value]
  · simp [timeseries.Add, counter.Add]
  · have hroll : (⟨1000000000, 1000000000, [⟨5⟩, ⟨1⟩, ⟨0⟩]⟩ : timeseries).roll
        1000000000 = ⟨1000000000, 1000000000, [⟨5⟩, ⟨1⟩, ⟨0⟩]⟩ := by decide
    norm_num [timeseries.MarshalJSON, hroll, specSeriesSnapshot,
      specCounterSnapshot, counter.MarshalJSON, counter.value]
  · intro h
    norm_num [timeseries.MarshalJSON, specSeriesSnapshot, specCounterSnapshot,
      counter.MarshalJSON, counter.value] at h

/-- Claim C2, amended: the canonical fixture under the code's
serialize-then-roll semantics — t=0 `Add(1)`, read `[1,0,0]`; t=1 read
`[1,0,0]` (values kept until read); t=1 `Add(5)`, read `[5,1,0]`; at t=3 the
FIRST read still reports `[5,1,0]` (and rotates), and the second read at t=3
reports `[0,0,5]`, the value 5 having aged two slots. -/
theorem C2_canonical_fixture :
    newTimeseries 0 ("3s1s")
      = some (⟨0, 1000000000, [⟨0⟩, ⟨0⟩, ⟨0⟩]⟩ : timeseries) ∧
    (⟨0, 1000000000, [⟨0⟩, ⟨0⟩, ⟨0⟩]⟩ : timeseries).Add 1
      = some (⟨0, 1000000000, [⟨1⟩, ⟨0⟩, ⟨0⟩]⟩ : timeseries) ∧
    (⟨0, 1000000000, [⟨1⟩, ⟨0⟩, ⟨0⟩]⟩ : timeseries).MarshalJSON 0
      = (specSeriesSnapshot 1 [1, 0, 0], ⟨0, 1000000000, [⟨1⟩, ⟨0⟩, ⟨0⟩]⟩) ∧
    (⟨0, 1000000000, [⟨1⟩, ⟨0⟩, ⟨0⟩]⟩ : timeseries).MarshalJSON 1000000000
      = (specSeriesSnapshot 1 [1, 0, 0],
         ⟨1000000000, 1000000000, [⟨0⟩, ⟨1⟩, ⟨0⟩]⟩) ∧
    (⟨1000000000, 1000000000, [⟨0⟩, ⟨1⟩, ⟨0⟩]⟩ : timeseries).Add 5
      = some (⟨1000000000, 1000000000, [⟨5⟩, ⟨1⟩, ⟨0⟩]⟩ : timeseries) ∧
    (⟨1000000000, 1000000000, [⟨5⟩, ⟨1⟩, ⟨0⟩]⟩ : timeseries).MarshalJSON 1000000000
      = (specSeriesSnapshot 1 [5, 1, 0],
         ⟨1000000000, 1000000000, [⟨5⟩, ⟨1⟩, ⟨0⟩]⟩) ∧
    (⟨1000000000, 1000000000, [⟨5⟩, ⟨1⟩, ⟨0⟩]⟩ : timeseries).MarshalJSON 3000000000
      = (specSeriesSnapshot 1 [5, 1, 0],
         ⟨3000000000, 1000000000, [⟨0⟩, ⟨0⟩, ⟨5⟩]⟩) ∧
    (⟨3000000000, 1000000000, [⟨0⟩, ⟨0⟩, ⟨5⟩]⟩ : timeseries).MarshalJSON 3000000000
      = (specSeriesSnapshot 1 [0, 0, 5],
         ⟨3000000000, 1000000000, [⟨0⟩, ⟨0⟩, ⟨5⟩]⟩) := by
  refine ⟨by decide, ?_, ?_, ?_, ?_, ?_, ?_, ?_⟩
  · simp [timeseries.Add, counter.Add]
  · have hroll : (⟨0, 1000000000, [⟨1⟩, ⟨0⟩, ⟨0⟩]⟩ : timeseries).roll 0
        = ⟨0, 1000000000, [⟨1⟩, ⟨0⟩, ⟨0⟩]⟩ := by decide
    norm_num [timeseries.MarshalJSON, hroll, specSeriesSnapshot,
      specCounterSnapshot, counter.MarshalJSON, counter.value]
  · have hroll : (⟨0, 1000000000, [⟨1⟩, ⟨0⟩, ⟨0⟩]⟩ : timeseries).roll 1000000000
        = ⟨1000000000, 1000000000, [⟨0⟩, ⟨1⟩, ⟨0⟩]⟩ := by decide
    norm_num [timeseries.MarshalJSON, hroll, specSeriesSnapshot,
      specCounterSnapshot, counter.MarshalJSON, counter.value]
  · simp [timeseries.Add, counter.Add]
  · have hroll : (⟨1000000000, 1000000000, [⟨5⟩, ⟨1⟩, ⟨0⟩]⟩ : timeseries).roll
        1000000000 = ⟨1000000000, 1000000000, [⟨5⟩, ⟨1⟩, ⟨0⟩]⟩ := by decide
    norm_num [timeseries.MarshalJSON, hroll, specSeriesSnapshot,
      specCounterSnapshot, counter.MarshalJSON, counter.value]
  · have hroll : (⟨1000000000, 1000000000, [⟨5⟩, ⟨1⟩, ⟨0⟩]⟩ : timeseries).roll
        3000000000 = ⟨3000000000, 1000000000, [⟨0⟩, ⟨0⟩, ⟨5⟩]⟩ := by decide
    norm_num [timeseries.MarshalJSON, hroll, specSeriesSnapshot,
      specCounterSnapshot, counter.MarshalJSON, counter.value]
  · have hroll : (⟨3000000000, 1000000000, [⟨0⟩, ⟨0⟩, ⟨5⟩]⟩ : timeseries).roll
        3000000000 = ⟨3000000000, 1000000000, [⟨0⟩, ⟨0⟩, ⟨5⟩]⟩ := by decide
    norm_num [timeseries.MarshalJSON, hroll, specSeriesSnapshot,
      specCounterSnapshot, counter.MarshalJSON, counter.value]

/-- Claim C4 counterexample: `roll()` updates the reference time to the
current clock unconditionally, so when the clock has moved backward (here
from 5 s to 2 s) the reference time moves BACKWARD, contradicting the
claim that no `roll()` call ever moves it backward. -/
theorem C4_counterexample :
    ((⟨5000000000, 1000000000, [⟨0⟩]⟩ : timeseries).roll 2000000000).now
      < (⟨5000000000, 1000000000, [⟨0⟩]⟩ : timeseries).now := by
  decide

/-- Claim C4, amended: `roll()` always succeeds and always sets the
reference time to the current clock `t` (hence a backward clock moves it
backward); a non-positive shift count (clock stalled or moved backward)
leaves the buckets untouched; and under a clock that has not moved backward
the interval-rounded reference time never exceeds the interval-rounded
wall-clock time. -/
theorem C4_roll_clock (ts : timeseries) (t : Int) :
    ((ts.roll t).now = t) ∧
    (ts.rollShift t ≤ 0 → (ts.roll t).samples = ts.samples) ∧
    (ts.now ≤ t → timeRound ts.now ts.interval ≤ timeRound t ts.interval) := by
  refine ⟨?_, ?_, fun h => timeRound_mono ts.interval h⟩
  · by_cases h1 : ts.rollShift t ≤ 0
    · rw [roll_shift_nonpos ts t h1]
    · push_neg at h1
      by_cases h2 : (ts.samples.length : Int) ≤ ts.rollShift t
      · rw [roll_shift_full ts t h1 h2]
      · push_neg at h2
        rw [roll_shift_rotates ts t h1 h2]
  · intro h
    rw [roll_shift_nonpos ts t h]

/-- Claim C4 witness: a roll at the same instant (shift 0) leaves the single
bucket untouched, and the rounded reference time is bounded by the rounded
clock. -/
theorem C4_witness :
    ((⟨0, 1000000000, [⟨7⟩]⟩ : timeseries).roll 0).samples = [⟨7⟩] ∧
    timeRound 0 1000000000 ≤ timeRound 0 1000000000 :=
  ⟨(C4_roll_clock ⟨0, 1000000000, [⟨7⟩]⟩ 0).2.1 (by decide),
   (C4_roll_clock ⟨0, 1000000000, [⟨7⟩]⟩ 0).2.2 (by decide)⟩

/-- Claim C5: `Add(delta)` never rotates: it adds the delta to the head
bucket `samples[0]` and leaves every other bucket, the interval and the
reference time unchanged; two `Add`s with no intervening read accumulate in
the same head bucket, whose count becomes the sum of the two deltas. -/
theorem C5_add_no_rotation (ts : timeseries) (d1 d2 : ℚ) (x : counter)
    (xs : List counter) (h : ts.samples = x :: xs) :
    ts.Add d1 = some { ts with samples := x.Add d1 :: xs } ∧
    ({ ts with samples := x.Add d1 :: xs } : timeseries).Add d2
      = some { ts with samples := ⟨x.count + (d1 + d2)⟩ :: xs } := by
  obtain ⟨n0, i0, s0⟩ := ts
  simp only at h
  subst h
  simp [timeseries.Add, counter.Add, add_assoc]

/-- Claim C5 witness: two `Add`s (2 then 3) on a head bucket holding 1. -/
theorem C5_witness :
    (⟨0, 1000000000, [⟨1⟩, ⟨0⟩]⟩ : timeseries).Add 2
      = some ⟨0, 1000000000, [counter.Add ⟨1⟩ 2, ⟨0⟩]⟩ :=
  (C5_add_no_rotation ⟨0, 1000000000, [⟨1⟩, ⟨0⟩]⟩ 2 3 ⟨1⟩ [⟨0⟩] rfl).1

/-- Claim C6: when `roll()` computes a shift count strictly between 0 and N,
the ring is rotated that many single steps, after which buckets
`0..shift-1` are zero and bucket `i` holds the previous value of bucket
`i - shift` for every `i ≥ shift`; the ring length is unchanged and index 0
is the freshly opened bucket. -/
theorem C6_roll_rotates (ts : timeseries) (t : Int)
    (h1 : 0 < ts.rollShift t) (h2 : ts.rollShift t < (ts.samples.length : Int)) :
    (ts.roll t).samples.length = ts.samples.length ∧
    (∀ i : Nat, (i : Int) < ts.rollShift t → (ts.roll t).samples[i]? = some ⟨0⟩) ∧
    (∀ i : Nat, ts.rollShift t ≤ (i : Int) → i < ts.samples.length →
      (ts.roll t).samples[i]? = ts.samples[i - (ts.rollShift t).toNat]?) := by
  have hk : ((ts.rollShift t).toNat : Int) = ts.rollShift t :=
    Int.toNat_of_nonneg h1.le
  set k := (ts.rollShift t).toNat with hkdef
  have hkle : k ≤ ts.samples.length := by omega
  rw [roll_shift_rotates ts t h1 h2]
  simp only [rotateTimes_spec k ts.samples hkle]
  refine ⟨?_, ?_, ?_⟩
  · simp
    omega
  · intro i hi
    have hik : i < k := by omega
    rw [List.getElem?_append_left (by simpa using hik)]
    simp [hik, List.getElem?_replicate]
  · intro i hge hlt
    have hik : k ≤ i := by omega
    rw [List.getElem?_append_right (by simpa using hik)]
    simp only [List.length_replicate]
    rw [List.getElem?_take]
    have : i - k < ts.samples.length - k := by omega
    simp [this]

/-- Claim C6 witness: rolling `[5,1,0]` one step (1 s elapsed on a 1 s
interval) opens a zero head bucket. -/
theorem C6_witness :
    ((⟨0, 1000000000, [⟨5⟩, ⟨1⟩, ⟨0⟩]⟩ : timeseries).roll 1000000000).samples[0]?
      = some ⟨0⟩ :=
  (C6_roll_rotates ⟨0, 1000000000, [⟨5⟩, ⟨1⟩, ⟨0⟩]⟩ 1000000000
    (by decide) (by decide)).2.1 0 (by decide)

/-- Claim C7: when `roll()` computes a shift count at least the ring length
N, all N buckets are reset to zero but stay allocated (the length is
preserved), and any two such shift counts — e.g. exactly N and N+5 — yield
observably identical all-zero serialized snapshots. -/
theorem C7_roll_full_reset (ts : timeseries) (t1 t2 : Int)
    (h1 : (ts.samples.length : Int) ≤ ts.rollShift t1)
    (h2 : (ts.samples.length : Int) ≤ ts.rollShift t2) :
    (ts.roll t1).samples = List.replicate ts.samples.length ⟨0⟩ ∧
    (ts.roll t1).samples.length = ts.samples.length ∧
    (ts.roll t1).serializeBody = (ts.roll t2).serializeBody := by
  have key : ∀ u : Int, (ts.samples.length : Int) ≤ ts.rollShift u →
      (ts.roll u).samples = List.replicate ts.samples.length ⟨0⟩ ∧
      (ts.roll u).interval = ts.interval := by
    intro u hu
    by_cases h0 : ts.rollShift u ≤ 0
    · have hlen : ts.samples.length = 0 := by omega
      rw [roll_shift_nonpos ts u h0]
      simp [hlen, List.length_eq_zero.mp hlen]
    · push_neg at h0
      rw [roll_shift_full ts u h0 hu]
      simp
  obtain ⟨e1, e2⟩ := key t1 h1
  obtain ⟨e3, e4⟩ := key t2 h2
  refine ⟨e1, by simp [e1], ?_⟩
  simp [timeseries.serializeBody, e1, e2, e3, e4]

/-- Claim C7 witness: on a 3-bucket 1 s series holding `[5,1,0]`, a shift of
exactly 3 (read at t = 3 s) and a shift of 8 = 3+5 (read at t = 8 s) both
clear the ring and serialize identically. -/
theorem C7_witness :
    ((⟨0, 1000000000, [⟨5⟩, ⟨1⟩, ⟨0⟩]⟩ : timeseries).roll 3000000000).samples
      = List.replicate 3 ⟨0⟩ ∧
    ((⟨0, 1000000000, [⟨5⟩, ⟨1⟩, ⟨0⟩]⟩ : timeseries).roll 3000000000).serializeBody
      = ((⟨0, 1000000000, [⟨5⟩, ⟨1⟩, ⟨0⟩]⟩ : timeseries).roll
          8000000000).serializeBody :=
  ⟨(C7_roll_full_reset ⟨0, 1000000000, [⟨5⟩, ⟨1⟩, ⟨0⟩]⟩ 3000000000 8000000000
      (by decide) (by decide)).1,
   (C7_roll_full_reset ⟨0, 1000000000, [⟨5⟩, ⟨1⟩, ⟨0⟩]⟩ 3000000000 8000000000
      (by decide) (by decide)).2.2⟩

/-- Claim C9: a bare counter marshals exactly to
`{"type":"c","count":<value>}`, a pure function of its value, and a windowed
series marshals to `{"interval":<seconds>,"samples":[<counter snapshot per
bucket>]}` with the samples in ring order (index 0 the most recent
bucket). -/
theorem C9_snapshot_format :
    (∀ c : counter, c.MarshalJSON = specCounterSnapshot c.value) ∧
    (∀ (ts : timeseries) (t : Int),
      (ts.MarshalJSON t).1
        = specSeriesSnapshot ((ts.interval : ℚ) / ((1000000000 : Int) : ℚ))
            (ts.samples.map counter.value)) := by
  refine ⟨fun c => rfl, fun ts t => ?_⟩
  simp [timeseries.MarshalJSON, specSeriesSnapshot, specCounterSnapshot,
    counter.MarshalJSON, List.map_map, Function.comp]

/-- Claim C10: in the frame parser's unit table, `'M'` maps to 7×30 = 210
days and `'y'` to 7×365 = 2555 days (both a factor 7 above a calendar month
and year), while `s`, `m`, `h`, `d`, `w` carry their conventional
durations (in nanoseconds). -/
theorem C10_unit_durations :
    units 'M' = 210 * (24 * 3600 * 1000000000) ∧
    units 'y' = 2555 * (24 * 3600 * 1000000000) ∧
    units 's' = 1000000000 ∧
    units 'm' = 60 * 1000000000 ∧
    units 'h' = 3600 * 1000000000 ∧
    units 'd' = 24 * 3600 * 1000000000 ∧
    units 'w' = 7 * (24 * 3600 * 1000000000) := by
  decide
